import Mathlib

set_option autoImplicit false

/-!
Verification of the watch-set management and event-dispatch engine of the
inotify-cpp notifier library, shallowly embedded in Lean 4.

The repository snapshot contains the builder layer (`NotifierBuilder.cpp`) and
its unit tests.  The `Inotify` engine class that the builder delegates to
(watch installation, ignore lists, the cancellable event loop) is not part of
the snapshot; its operations are modelled from the specification and marked as
such in their doc comments.  Everything in `NotifierBuilder.cpp` (the builder
methods, `runOnce`, `run`, `stop`) is translated directly from that source.

Event kinds are represented as raw `Nat` bitmask values, mirroring the C++
`Event` enum whose values are inotify bit constants; `static_cast<Event>(mask)`
in the source is the identity on the underlying value.  Callbacks are an
abstract type parameter `κ`; an invocation of a callback `cb` with a
notification `n` is recorded as the pair `(cb, n)` in the invocation list that
`runOnce`/`run` return.
-/

namespace InotifyCpp

/-- A raw event record after name resolution: the record's bitmask of event
kinds and the resolved absolute path of the affected entry. -/
structure FileSystemEvent where
  mask : Nat
  path : String
deriving DecidableEq, Repr

/-- The user-facing structured event: event kind value and resolved path.
Mirrors `struct Notification { Event event; boost::filesystem::path path; }`. -/
structure Notification where
  event : Nat
  path : String
deriving DecidableEq, Repr

/-- Errors raised synchronously by registration calls.  `invalidPath`
corresponds to the `std::invalid_argument` thrown for nonexistent paths. -/
inductive InotifyError where
  | invalidPath : String → InotifyError
deriving DecidableEq, Repr

/-- Modelled from the spec: the external filesystem collaborator, providing
"does this path exist" and "which directories lie in a subtree" queries used
by the watch-registration calls. -/
structure Filesystem where
  existing : List String
  dirs : List String
deriving DecidableEq, Repr

/-- Modelled from the spec: the state of the `Inotify` engine object
(`mInotify` in the builder).  Its implementation file is not part of this
repository snapshot; the fields follow §2–§4 of the specification: the watch
table (path side), the permanent and one-shot ignore registries, the
accumulated event mask, the stop flag of the cancellable event loop, and the
queue of pending translated event records. -/
structure InotifyState where
  watched : List String
  ignored : List String
  ignoredOnce : List String
  eventMask : Nat
  stopped : Bool
  queue : List FileSystemEvent
deriving DecidableEq, Repr

namespace Inotify

/-- Modelled from the spec: `watchFile` installs a watch for an existing path
and fails synchronously with `InvalidPathError` for a nonexistent one,
installing nothing. -/
def watchFile (fs : Filesystem) (file : String) (s : InotifyState) :
    Except InotifyError InotifyState :=
  if file ∈ fs.existing then
    .ok { s with watched := file :: s.watched }
  else
    .error (.invalidPath file)

/-- Directories of the filesystem lying inside the subtree rooted at `root`. -/
def dirsUnder (fs : Filesystem) (root : String) : List String :=
  fs.dirs.filter (fun d => root.isPrefixOf d)

/-- Modelled from the spec: `watchDirectoryRecursively` fails with
`InvalidPathError` if the root does not exist or is not a directory, and
otherwise installs a watch on the root and on every directory in its
subtree. -/
def watchDirectoryRecursively (fs : Filesystem) (root : String)
    (s : InotifyState) : Except InotifyError InotifyState :=
  if root ∈ fs.existing then
    if root ∈ fs.dirs then
      .ok { s with watched := root :: dirsUnder fs root ++ s.watched }
    else
      .error (.invalidPath root)
  else
    .error (.invalidPath root)

/-- Modelled from the spec: `unwatchFile` removes the path's watch; absent
paths are a no-op. -/
def unwatchFile (file : String) (s : InotifyState) : InotifyState :=
  { s with watched := s.watched.erase file }

/-- Modelled from the spec: register a one-shot ignore entry for the path. -/
def ignoreFileOnce (file : String) (s : InotifyState) : InotifyState :=
  { s with ignoredOnce := s.ignoredOnce ++ [file] }

/-- Modelled from the spec: register a permanent ignore entry for the path. -/
def ignoreFile (file : String) (s : InotifyState) : InotifyState :=
  { s with ignored := s.ignored ++ [file] }

/-- Modelled from the spec: setter for the accumulated event mask. -/
def setEventMask (mask : Nat) (s : InotifyState) : InotifyState :=
  { s with eventMask := mask }

/-- Modelled from the spec: getter for the accumulated event mask. -/
def getEventMask (s : InotifyState) : Nat :=
  s.eventMask

/-- Modelled from the spec: `stop` asks the cancellable event loop to stop;
the flag is never cleared again. -/
def stop (s : InotifyState) : InotifyState :=
  { s with stopped := true }

/-- Modelled from the spec: whether the loop has been asked to stop. -/
def hasStopped (s : InotifyState) : Bool :=
  s.stopped

/-- Modelled from the spec: scan the pending queue for the first dispatchable
record.  A record whose path is permanently ignored is skipped; a record whose
path has a one-shot ignore entry is skipped and the entry is consumed
(check-and-consume, §4.2).  Returns the first surviving record together with
the remaining queue and the updated one-shot list. -/
def nextEventAux (ignored : List String) :
    List FileSystemEvent → List String →
      Option FileSystemEvent × List FileSystemEvent × List String
  | [], once => (none, [], once)
  | e :: rest, once =>
    if e.path ∈ ignored then nextEventAux ignored rest once
    else if e.path ∈ once then nextEventAux ignored rest (once.erase e.path)
    else (some e, rest, once)

/-- Modelled from the spec: `getNextEvent` returns `none` once the loop has
been asked to stop, and otherwise the first dispatchable record of the pending
queue after ignore suppression (an empty result models a read that is still
blocked waiting for records). -/
def getNextEvent (s : InotifyState) : Option FileSystemEvent × InotifyState :=
  if s.stopped then (none, s)
  else
    let r := nextEventAux s.ignored s.queue s.ignoredOnce
    (r.1, { s with queue := r.2.1, ignoredOnce := r.2.2 })

end Inotify

/-- Insert-or-overwrite into an association list keyed by event kind,
mirroring `std::map::operator[]` assignment: an existing entry for the key is
replaced in place, otherwise a new entry is appended. -/
def mapInsert {κ : Type} (k : Nat) (v : κ) : List (Nat × κ) → List (Nat × κ)
  | [] => [(k, v)]
  | (k', v') :: rest =>
    if k' = k then (k, v) :: rest else (k', v') :: mapInsert k v rest

/-- Lookup in the association list, mirroring `std::map::find`. -/
def mapFind {κ : Type} (k : Nat) : List (Nat × κ) → Option κ
  | [] => none
  | (k', v) :: rest => if k' = k then some v else mapFind k rest

/-- Number of entries stored under key `k`. -/
def mapCountKey {κ : Type} (k : Nat) (m : List (Nat × κ)) : Nat :=
  (m.filter (fun e => e.1 = k)).length

/-- State of a `NotifierBuilder`, from `NotifierBuilder.cpp`: the engine
object, the event-observer map and the optional fallback observer. -/
structure NotifierBuilder (κ : Type) where
  mInotify : InotifyState
  mEventObserver : List (Nat × κ)
  mUnexpectedEventObserver : Option κ

/-- `BuildNotifier()` returns a default-constructed builder: a fresh engine,
no observers, no fallback.  The fresh engine state is modelled from the spec:
nothing watched or ignored, empty mask, not stopped, no pending records. -/
def BuildNotifier (κ : Type) : NotifierBuilder κ :=
  { mInotify :=
      { watched := [], ignored := [], ignoredOnce := [], eventMask := 0
        stopped := false, queue := [] }
    mEventObserver := []
    mUnexpectedEventObserver := none }

namespace NotifierBuilder

variable {κ : Type}

/-- `NotifierBuilder::watchPathRecursively`: delegates to the engine and
returns the builder. -/
def watchPathRecursively (fs : Filesystem) (path : String)
    (b : NotifierBuilder κ) : Except InotifyError (NotifierBuilder κ) :=
  (Inotify.watchDirectoryRecursively fs path b.mInotify).map
    (fun i => { b with mInotify := i })

/-- `NotifierBuilder::watchFile`: delegates to the engine and returns the
builder. -/
def watchFile (fs : Filesystem) (file : String) (b : NotifierBuilder κ) :
    Except InotifyError (NotifierBuilder κ) :=
  (Inotify.watchFile fs file b.mInotify).map
    (fun i => { b with mInotify := i })

/-- `NotifierBuilder::unwatchFile`: delegates to the engine and returns the
builder. -/
def unwatchFile (file : String) (b : NotifierBuilder κ) : NotifierBuilder κ :=
  { b with mInotify := Inotify.unwatchFile file b.mInotify }

/-- `NotifierBuilder::ignoreFileOnce`: delegates to the engine and returns
the builder. -/
def ignoreFileOnce (file : String) (b : NotifierBuilder κ) :
    NotifierBuilder κ :=
  { b with mInotify := Inotify.ignoreFileOnce file b.mInotify }

/-- `NotifierBuilder::ignoreFile`: delegates to the engine and returns the
builder. -/
def ignoreFile (file : String) (b : NotifierBuilder κ) : NotifierBuilder κ :=
  { b with mInotify := Inotify.ignoreFile file b.mInotify }

/-- `NotifierBuilder::onEvent`: ors the kind into the engine's event mask and
stores the observer under the kind (overwriting any previous entry). -/
def onEvent (event : Nat) (eventObserver : κ) (b : NotifierBuilder κ) :
    NotifierBuilder κ :=
  { b with
    mInotify :=
      Inotify.setEventMask (Inotify.getEventMask b.mInotify ||| event)
        b.mInotify
    mEventObserver := mapInsert event eventObserver b.mEventObserver }

/-- `NotifierBuilder::onEvents`: loops over the kinds, performing for each the
same mask update and map assignment as `onEvent`. -/
def onEvents (events : List Nat) (eventObserver : κ) (b : NotifierBuilder κ) :
    NotifierBuilder κ :=
  events.foldl
    (fun acc event =>
      { acc with
        mInotify :=
          Inotify.setEventMask (Inotify.getEventMask acc.mInotify ||| event)
            acc.mInotify
        mEventObserver := mapInsert event eventObserver acc.mEventObserver })
    b

/-- `NotifierBuilder::onUnexpectedEvent`: stores the fallback observer. -/
def onUnexpectedEvent (eventObserver : κ) (b : NotifierBuilder κ) :
    NotifierBuilder κ :=
  { b with mUnexpectedEventObserver := some eventObserver }

/-- `NotifierBuilder::runOnce`, translated from the source: pull one event
from the engine; if none, return.  Otherwise cast the record's mask to an
event kind, build the notification from the mask and the record's path, and
look the kind up in the observer map: a registered observer is invoked with
the notification; otherwise the fallback, if present, is invoked; otherwise
the record is dropped.  The returned list records the callback invocations of
this call, in order. -/
def runOnce (b : NotifierBuilder κ) :
    List (κ × Notification) × NotifierBuilder κ :=
  let r := Inotify.getNextEvent b.mInotify
  let b' : NotifierBuilder κ := { b with mInotify := r.2 }
  match r.1 with
  | none => ([], b')
  | some fileSystemEvent =>
    let event : Nat := fileSystemEvent.mask
    let notification : Notification :=
      { event := event, path := fileSystemEvent.path }
    match mapFind event b.mEventObserver with
    | none =>
      match b.mUnexpectedEventObserver with
      | some unexpectedObserver => ([(unexpectedObserver, notification)], b')
      | none => ([], b')
    | some eventObserver => ([(eventObserver, notification)], b')

/-- `NotifierBuilder::run`, translated from the source: loop, breaking as soon
as the engine reports it has stopped, and otherwise calling `runOnce`.  The
C++ loop is unbounded; `fuel` bounds the number of iterations modelled. -/
def run (fuel : Nat) (b : NotifierBuilder κ) :
    List (κ × Notification) × NotifierBuilder κ :=
  match fuel with
  | 0 => ([], b)
  | Nat.succ fuel =>
    if Inotify.hasStopped b.mInotify then ([], b)
    else
      let r := b.runOnce
      let r' := run fuel r.2
      (r.1 ++ r'.1, r'.2)

/-- `NotifierBuilder::stop`: delegates to the engine. -/
def stop (b : NotifierBuilder κ) : NotifierBuilder κ :=
  { b with mInotify := Inotify.stop b.mInotify }

end NotifierBuilder

/-- One call of the builder surface, used to quantify over arbitrary later
operation sequences on a notifier. -/
inductive BuilderOp (κ : Type) where
  | watchFile (fs : Filesystem) (file : String)
  | watchPathRecursively (fs : Filesystem) (path : String)
  | unwatchFile (file : String)
  | ignoreFile (file : String)
  | ignoreFileOnce (file : String)
  | onEvent (event : Nat) (eventObserver : κ)
  | onEvents (events : List Nat) (eventObserver : κ)
  | onUnexpectedEvent (eventObserver : κ)
  | stop
  | runOnce
  | run (fuel : Nat)

/-- Apply one builder operation to a builder state.  A registration call that
throws (`Except.error`) leaves the builder unchanged, as a thrown C++
exception does. -/
def applyOp {κ : Type} (op : BuilderOp κ) (b : NotifierBuilder κ) :
    NotifierBuilder κ :=
  match op with
  | .watchFile fs file =>
    match b.watchFile fs file with
    | .ok b' => b'
    | .error _ => b
  | .watchPathRecursively fs path =>
    match b.watchPathRecursively fs path with
    | .ok b' => b'
    | .error _ => b
  | .unwatchFile file => b.unwatchFile file
  | .ignoreFile file => b.ignoreFile file
  | .ignoreFileOnce file => b.ignoreFileOnce file
  | .onEvent event eventObserver => b.onEvent event eventObserver
  | .onEvents events eventObserver => b.onEvents events eventObserver
  | .onUnexpectedEvent eventObserver => b.onUnexpectedEvent eventObserver
  | .stop => b.stop
  | .runOnce => b.runOnce.2
  | .run fuel => (NotifierBuilder.run fuel b).2

/-- Apply a sequence of builder operations in order. -/
def applyOps {κ : Type} (ops : List (BuilderOp κ)) (b : NotifierBuilder κ) :
    NotifierBuilder κ :=
  ops.foldl (fun acc op => applyOp op acc) b

/-- Two builder states agreeing on the callback registrations: the same
event-observer map and the same unexpected-event fallback. -/
def sameObservers {κ : Type} (a b : NotifierBuilder κ) : Prop :=
  a.mEventObserver = b.mEventObserver ∧
    a.mUnexpectedEventObserver = b.mUnexpectedEventObserver

/-- A sample builder for concrete evaluations: one pending open record
(mask 32) for a watched file, observer `0` registered for kind 32 and
observer `1` for kind 2. -/
def sampleBuilder : NotifierBuilder Nat :=
  { mInotify :=
      { watched := ["/t/test.txt"], ignored := [], ignoredOnce := []
        eventMask := 34, stopped := false
        queue := [{ mask := 32, path := "/t/test.txt" }] }
    mEventObserver := [(32, 0), (2, 1)]
    mUnexpectedEventObserver := none }

/-- A sample builder whose pending record carries the multi-bit mask 33
(access = 1 and open = 32 signalled together), with observers registered for
kind 1, kind 32 and the combined value 33. -/
def multiBuilder : NotifierBuilder Nat :=
  { mInotify :=
      { watched := ["/t/f"], ignored := [], ignoredOnce := []
        eventMask := 33, stopped := false
        queue := [{ mask := 33, path := "/t/f" }] }
    mEventObserver := [(1, 0), (32, 1), (33, 2)]
    mUnexpectedEventObserver := none }

/-- A sample builder with no registered observers and fallback observer `7`,
with one pending open record. -/
def fallbackBuilder : NotifierBuilder Nat :=
  { mInotify :=
      { watched := ["/t/f"], ignored := [], ignoredOnce := []
        eventMask := 0, stopped := false
        queue := [{ mask := 32, path := "/t/f" }] }
    mEventObserver := []
    mUnexpectedEventObserver := some 7 }

/-- A sample builder whose file has a one-shot ignore entry and two pending
open records for it, with observer `5` registered for kind 32. -/
def ignoreOnceBuilder : NotifierBuilder Nat :=
  { mInotify :=
      { watched := ["/t/f"], ignored := [], ignoredOnce := ["/t/f"]
        eventMask := 32, stopped := false
        queue := [{ mask := 32, path := "/t/f" }, { mask := 32, path := "/t/f" }] }
    mEventObserver := [(32, 5)]
    mUnexpectedEventObserver := none }

/-- A sample filesystem containing a single file. -/
def sampleFs : Filesystem :=
  { existing := ["/t/test.txt"], dirs := [] }

end InotifyCpp

namespace InotifyCpp

/-! ## Helper lemmas -/

/-- When the head of the queue is suppressed by no ignore entry,
`getNextEvent` returns it and only pops it off the queue. -/
theorem getNextEvent_head (s : InotifyState) (fse : FileSystemEvent)
    (rest : List FileSystemEvent)
    (hstop : s.stopped = false) (hq : s.queue = fse :: rest)
    (hig : fse.path ∉ s.ignored) (honce : fse.path ∉ s.ignoredOnce) :
    Inotify.getNextEvent s = (some fse, { s with queue := rest }) := by
  simp [Inotify.getNextEvent, hstop, hq, Inotify.nextEventAux, hig, honce]

/-- A queue consisting only of permanently ignored paths yields no
dispatchable record and consumes no one-shot entry. -/
theorem nextEventAux_all_ignored (ignored : List String) :
    ∀ (queue : List FileSystemEvent) (once : List String),
      (∀ e ∈ queue, e.path ∈ ignored) →
      Inotify.nextEventAux ignored queue once = (none, [], once)
  | [], _, _ => rfl
  | e :: rest, once, h => by
    have he : e.path ∈ ignored := h e (List.mem_cons_self e rest)
    simp only [Inotify.nextEventAux, if_pos he]
    exact nextEventAux_all_ignored ignored rest once
      (fun x hx => h x (List.mem_cons_of_mem e hx))

/-- Inserting under a key makes lookup of that key return the new value. -/
theorem mapFind_mapInsert_self {κ : Type} (k : Nat) (v : κ) :
    ∀ m : List (Nat × κ), mapFind k (mapInsert k v m) = some v
  | [] => by simp [mapInsert, mapFind]
  | (k', v') :: rest => by
    by_cases hk : k' = k
    · simp [mapInsert, mapFind, hk]
    · simp [mapInsert, mapFind, hk, mapFind_mapInsert_self k v rest]

/-- Inserting under a key leaves exactly one entry for it when the map held
at most one, and never introduces a second. -/
theorem mapCountKey_mapInsert {κ : Type} (k : Nat) (v : κ) :
    ∀ m : List (Nat × κ),
      mapCountKey k (mapInsert k v m) = max 1 (mapCountKey k m)
  | [] => by simp [mapInsert, mapCountKey]
  | (k', v') :: rest => by
    by_cases hk : k' = k
    · simp only [mapInsert, if_pos hk, mapCountKey, List.filter]
      simp [hk]
    · simp only [mapInsert, if_neg hk, mapCountKey, List.filter]
      simp only [decide_eq_true_eq, hk, if_false]
      have := mapCountKey_mapInsert k v rest
      simp only [mapCountKey] at this
      simp [hk, this]

end InotifyCpp

namespace InotifyCpp

/-! ## Theorems -/

/-- C1: for every call to `runOnce`, the dispatcher pulls exactly one event
from the event loop (the post-state of the engine is exactly the state after
one `getNextEvent` call); if an event is obtained and an observer is
registered for its kind, that observer is invoked exactly once, with a
notification whose event equals the record's kind and whose path equals the
record's resolved path, and no other observer is invoked on that call (the
invocation list is that singleton). -/
theorem runOnce_dispatches_registered_exactly_once {κ : Type}
    (b : NotifierBuilder κ) (fse : FileSystemEvent) (cb : κ)
    (hev : (Inotify.getNextEvent b.mInotify).1 = some fse)
    (hcb : mapFind fse.mask b.mEventObserver = some cb) :
    b.runOnce.1 = [(cb, { event := fse.mask, path := fse.path })] ∧
      b.runOnce.2.mInotify = (Inotify.getNextEvent b.mInotify).2 := by
  simp [NotifierBuilder.runOnce, hev, hcb]

/-- Witness for C1 at `sampleBuilder`. -/
theorem runOnce_dispatches_registered_witness :
    sampleBuilder.runOnce.1 = [(0, { event := 32, path := "/t/test.txt" })] ∧
      sampleBuilder.runOnce.2.mInotify =
        (Inotify.getNextEvent sampleBuilder.mInotify).2 :=
  runOnce_dispatches_registered_exactly_once sampleBuilder
    { mask := 32, path := "/t/test.txt" } 0 (by decide) (by decide)

/-- C2 counterexample: the record of `multiBuilder` carries the multi-bit
mask 33 (access and open together), yet routing uses the combined mask value
itself as the lookup key: the observer registered under 33 is invoked with a
notification of event 33, and the observers registered under the single kinds
1 and 32 are not invoked. -/
theorem routing_uses_combined_mask_counterexample :
    33 &&& (33 - 1) ≠ 0 ∧
      multiBuilder.runOnce.1 = [(2, { event := 33, path := "/t/f" })] := by
  constructor
  · decide
  · decide

/-- C2 amended: the routing key is the record's full raw mask value cast to
an event kind.  The observers `runOnce` invokes are exactly the result of
looking up the combined mask value in the observer map, falling back to the
unexpected-event observer when that lookup fails — even when the mask signals
several kinds at once. -/
theorem runOnce_routes_on_full_mask {κ : Type} (b : NotifierBuilder κ)
    (fse : FileSystemEvent)
    (hev : (Inotify.getNextEvent b.mInotify).1 = some fse) :
    b.runOnce.1.map Prod.fst =
      (match mapFind fse.mask b.mEventObserver with
       | some cb => [cb]
       | none => b.mUnexpectedEventObserver.toList) := by
  simp only [NotifierBuilder.runOnce, hev]
  cases hfind : mapFind fse.mask b.mEventObserver with
  | none =>
    cases hu : b.mUnexpectedEventObserver with
    | none => simp
    | some u => simp
  | some cb => simp

/-- Witness for the amended C2 at `multiBuilder`. -/
theorem runOnce_routes_on_full_mask_witness :
    multiBuilder.runOnce.1.map Prod.fst =
      (match mapFind 33 multiBuilder.mEventObserver with
       | some cb => [cb]
       | none => multiBuilder.mUnexpectedEventObserver.toList) :=
  runOnce_routes_on_full_mask multiBuilder { mask := 33, path := "/t/f" }
    (by decide)

/-- C3: when the obtained record's kind has no registered observer, `runOnce`
invokes the fallback exactly once with that notification if a fallback is
registered, and invokes no observer at all (returning normally, with an empty
invocation list) if none is. -/
theorem runOnce_unregistered_fallback_or_drop {κ : Type}
    (b : NotifierBuilder κ) (fse : FileSystemEvent)
    (hev : (Inotify.getNextEvent b.mInotify).1 = some fse)
    (hnone : mapFind fse.mask b.mEventObserver = none) :
    (∀ u, b.mUnexpectedEventObserver = some u →
        b.runOnce.1 = [(u, { event := fse.mask, path := fse.path })]) ∧
      (b.mUnexpectedEventObserver = none → b.runOnce.1 = []) := by
  constructor
  · intro u hu
    simp only [NotifierBuilder.runOnce, hev, hnone, hu]
  · intro hu
    simp only [NotifierBuilder.runOnce, hev, hnone, hu]

/-- Witness for C3 at `fallbackBuilder`. -/
theorem runOnce_unregistered_fallback_witness :
    fallbackBuilder.runOnce.1 = [(7, { event := 32, path := "/t/f" })] :=
  (runOnce_unregistered_fallback_or_drop fallbackBuilder
      { mask := 32, path := "/t/f" } (by decide) (by decide)).1 7 rfl

end InotifyCpp

namespace InotifyCpp

/-- C4: for a path that does not exist, both `watchFile` and
`watchPathRecursively` fail synchronously with `InvalidPathError` and install
no watch: the call produces no new state, and the builder (hence the watch
table) is left unchanged. -/
theorem watch_nonexistent_path_fails {κ : Type} (b : NotifierBuilder κ)
    (fs : Filesystem) (p : String) (h : p ∉ fs.existing) :
    b.watchFile fs p = .error (.invalidPath p) ∧
      b.watchPathRecursively fs p = .error (.invalidPath p) ∧
      applyOp (.watchFile fs p) b = b ∧
      applyOp (.watchPathRecursively fs p) b = b := by
  have h1 : Inotify.watchFile fs p b.mInotify = .error (.invalidPath p) := by
    simp [Inotify.watchFile, h]
  have h2 : Inotify.watchDirectoryRecursively fs p b.mInotify =
      .error (.invalidPath p) := by
    simp [Inotify.watchDirectoryRecursively, h]
  refine ⟨?_, ?_, ?_, ?_⟩ <;>
    simp [NotifierBuilder.watchFile, NotifierBuilder.watchPathRecursively,
      applyOp, h1, h2, Except.map]

/-- Witness for C4: a fresh notifier rejects a nonexistent path. -/
theorem watch_nonexistent_path_fails_witness :
    (BuildNotifier Nat).watchFile sampleFs "/not/existing/file" =
        .error (.invalidPath "/not/existing/file") ∧
      (BuildNotifier Nat).watchPathRecursively sampleFs "/not/existing/file" =
        .error (.invalidPath "/not/existing/file") ∧
      applyOp (.watchFile sampleFs "/not/existing/file") (BuildNotifier Nat) =
        BuildNotifier Nat ∧
      applyOp (.watchPathRecursively sampleFs "/not/existing/file")
          (BuildNotifier Nat) =
        BuildNotifier Nat :=
  watch_nonexistent_path_fails (BuildNotifier Nat) sampleFs
    "/not/existing/file" (by decide)

/-- C5: with a single one-shot ignore entry for `p` (and `p` not permanently
ignored), exactly the next matching record for `p` is suppressed — `runOnce`
skips it, invokes only the observer of the following record, and the entry is
consumed so later events for `p` dispatch normally.  With `p` permanently
ignored, every matching record is suppressed: a queue of records for ignored
paths produces no invocation at all. -/
theorem ignoreOnce_and_ignore_semantics {κ : Type} (b : NotifierBuilder κ)
    (p : String) :
    (∀ (e₁ e₂ : FileSystemEvent) (rest : List FileSystemEvent) (cb : κ),
        b.mInotify.stopped = false →
        b.mInotify.queue = e₁ :: e₂ :: rest →
        e₁.path = p → e₂.path = p →
        p ∉ b.mInotify.ignored →
        b.mInotify.ignoredOnce.count p = 1 →
        mapFind e₂.mask b.mEventObserver = some cb →
        b.runOnce.1 = [(cb, { event := e₂.mask, path := e₂.path })] ∧
          p ∉ b.runOnce.2.mInotify.ignoredOnce) ∧
      ((∀ e ∈ b.mInotify.queue, e.path ∈ b.mInotify.ignored) →
        b.runOnce.1 = []) := by
  constructor
  · intro e₁ e₂ rest cb hstop hq h1 h2 hig honce hcb
    have hpmem : p ∈ b.mInotify.ignoredOnce := by
      have := List.count_pos_iff.mp (by omega : 0 < b.mInotify.ignoredOnce.count p)
      exact this
    have herase : p ∉ b.mInotify.ignoredOnce.erase p := by
      have hc := List.count_erase_self p b.mInotify.ignoredOnce
      rw [honce] at hc
      exact List.count_eq_zero.mp hc
    have haux : Inotify.nextEventAux b.mInotify.ignored (e₁ :: e₂ :: rest)
        b.mInotify.ignoredOnce =
        (some e₂, rest, b.mInotify.ignoredOnce.erase p) := by
      simp [Inotify.nextEventAux, h1, h2, hig, hpmem, herase]
    have hnext : Inotify.getNextEvent b.mInotify =
        (some e₂, { b.mInotify with queue := rest, ignoredOnce := b.mInotify.ignoredOnce.erase p }) := by
      simp [Inotify.getNextEvent, hstop, hq, haux]
    constructor
    · simp [NotifierBuilder.runOnce, hnext, hcb]
    · simp [NotifierBuilder.runOnce, hnext, hcb]
      exact herase
  · intro hall
    cases hstop : b.mInotify.stopped with
    | true =>
      simp [NotifierBuilder.runOnce, Inotify.getNextEvent, hstop]
    | false =>
      have haux := nextEventAux_all_ignored b.mInotify.ignored
        b.mInotify.queue b.mInotify.ignoredOnce hall
      simp [NotifierBuilder.runOnce, Inotify.getNextEvent, hstop, haux]

/-- Witness for C5 at `ignoreOnceBuilder`: the first pending open record is
suppressed, the second is dispatched to observer `5`, and the one-shot entry
is gone afterwards. -/
theorem ignoreOnce_and_ignore_semantics_witness :
    ignoreOnceBuilder.runOnce.1 = [(5, { event := 32, path := "/t/f" })] ∧
      "/t/f" ∉ ignoreOnceBuilder.runOnce.2.mInotify.ignoredOnce :=
  (ignoreOnce_and_ignore_semantics ignoreOnceBuilder "/t/f").1
    { mask := 32, path := "/t/f" } { mask := 32, path := "/t/f" } [] 5
    rfl rfl rfl rfl (by decide) (by decide) (by decide)

/-- C7: registering `f` then `g` for the same kind `k` leaves exactly one
entry for `k` in the observer map (given the map's keys were unique to begin
with, as `std::map` guarantees), lookup of `k` yields `g`, and dispatching a
pending record of kind `k` invokes `g` and nothing else: the last
registration for a kind wins. -/
theorem last_registration_wins {κ : Type} (b : NotifierBuilder κ)
    (k : Nat) (f g : κ) (fse : FileSystemEvent) (rest : List FileSystemEvent)
    (huniq : mapCountKey k b.mEventObserver ≤ 1)
    (hstop : b.mInotify.stopped = false)
    (hq : b.mInotify.queue = fse :: rest)
    (hmask : fse.mask = k)
    (hig : fse.path ∉ b.mInotify.ignored)
    (honce : fse.path ∉ b.mInotify.ignoredOnce) :
    mapCountKey k ((b.onEvent k f).onEvent k g).mEventObserver = 1 ∧
      mapFind k ((b.onEvent k f).onEvent k g).mEventObserver = some g ∧
      ((b.onEvent k f).onEvent k g).runOnce.1 =
        [(g, { event := k, path := fse.path })] := by
  have hobs : ((b.onEvent k f).onEvent k g).mEventObserver =
      mapInsert k g (mapInsert k f b.mEventObserver) := rfl
  refine ⟨?_, ?_, ?_⟩
  · rw [hobs, mapCountKey_mapInsert, mapCountKey_mapInsert]
    omega
  · rw [hobs]
    exact mapFind_mapInsert_self k g (mapInsert k f b.mEventObserver)
  · have hnext : Inotify.getNextEvent ((b.onEvent k f).onEvent k g).mInotify =
        (some fse, { ((b.onEvent k f).onEvent k g).mInotify with queue := rest }) :=
      getNextEvent_head _ fse rest hstop hq hig honce
    have hfind : mapFind k ((b.onEvent k f).onEvent k g).mEventObserver =
        some g := by
      rw [hobs]
      exact mapFind_mapInsert_self k g (mapInsert k f b.mEventObserver)
    simp [NotifierBuilder.runOnce, hnext, hmask, hfind]

/-- Witness for C7: on `sampleBuilder`, re-registering kind 32 with observer
`9` after observer `8` leaves one entry for 32, finds `9`, and dispatches the
pending record to `9`. -/
theorem last_registration_wins_witness :
    mapCountKey 32 ((sampleBuilder.onEvent 32 8).onEvent 32 9).mEventObserver = 1 ∧
      mapFind 32 ((sampleBuilder.onEvent 32 8).onEvent 32 9).mEventObserver =
        some 9 ∧
      ((sampleBuilder.onEvent 32 8).onEvent 32 9).runOnce.1 =
        [(9, { event := 32, path := "/t/test.txt" })] :=
  last_registration_wins sampleBuilder 32 8 9
    { mask := 32, path := "/t/test.txt" } [] (by decide) rfl rfl rfl
    (by decide) (by decide)

/-- C8: `onEvents` leaves the builder in exactly the state produced by
folding `onEvent` over the kinds in order — the same observer-map contents
and the same accumulated event mask. -/
theorem onEvents_eq_fold_onEvent {κ : Type} (b : NotifierBuilder κ)
    (events : List Nat) (eventObserver : κ) :
    b.onEvents events eventObserver =
      events.foldl (fun acc event => acc.onEvent event eventObserver) b :=
  rfl

end InotifyCpp

namespace InotifyCpp

/-- `getNextEvent` never changes the stop flag. -/
theorem getNextEvent_stopped (s : InotifyState) :
    (Inotify.getNextEvent s).2.stopped = s.stopped := by
  simp only [Inotify.getNextEvent]
  split <;> rfl

/-- The builder state after `runOnce` is the input builder with the engine
advanced by exactly one `getNextEvent` call. -/
theorem runOnce_snd {κ : Type} (b : NotifierBuilder κ) :
    b.runOnce.2 = { b with mInotify := (Inotify.getNextEvent b.mInotify).2 } := by
  simp only [NotifierBuilder.runOnce]
  cases h : (Inotify.getNextEvent b.mInotify).1 with
  | none => simp [h]
  | some fse =>
    cases hf : mapFind fse.mask b.mEventObserver with
    | none => cases hu : b.mUnexpectedEventObserver <;> simp [h, hf, hu]
    | some cb => simp [h, hf]

/-- `runOnce` never changes the stop flag. -/
theorem runOnce_stopped {κ : Type} (b : NotifierBuilder κ) :
    b.runOnce.2.mInotify.stopped = b.mInotify.stopped := by
  rw [runOnce_snd]
  exact getNextEvent_stopped b.mInotify

/-- `run` never changes the stop flag. -/
theorem run_stopped {κ : Type} :
    ∀ (fuel : Nat) (b : NotifierBuilder κ),
      (NotifierBuilder.run fuel b).2.mInotify.stopped = b.mInotify.stopped
  | 0, _ => rfl
  | Nat.succ fuel, b => by
    simp only [NotifierBuilder.run]
    split
    · rfl
    · rw [run_stopped fuel b.runOnce.2, runOnce_stopped]

/-- A stopped engine makes `run` return at once, performing no `runOnce`
iteration: no invocation and no state change. -/
theorem run_of_stopped {κ : Type} (fuel : Nat) (b : NotifierBuilder κ)
    (h : b.mInotify.stopped = true) :
    NotifierBuilder.run fuel b = ([], b) := by
  cases fuel with
  | zero => rfl
  | succ n => simp [NotifierBuilder.run, Inotify.hasStopped, h]

/-- A successful `watchFile` never changes the stop flag. -/
theorem watchFile_ok_stopped (fs : Filesystem) (file : String)
    (s s' : InotifyState) (h : Inotify.watchFile fs file s = .ok s') :
    s'.stopped = s.stopped := by
  simp only [Inotify.watchFile] at h
  split at h
  · injection h with h
    subst h
    rfl
  · exact Except.noConfusion h

/-- A successful `watchDirectoryRecursively` never changes the stop flag. -/
theorem watchDirectoryRecursively_ok_stopped (fs : Filesystem) (root : String)
    (s s' : InotifyState)
    (h : Inotify.watchDirectoryRecursively fs root s = .ok s') :
    s'.stopped = s.stopped := by
  simp only [Inotify.watchDirectoryRecursively] at h
  split at h
  · split at h
    · injection h with h
      subst h
      rfl
    · exact Except.noConfusion h
  · exact Except.noConfusion h

/-- `onEvents` never changes the stop flag. -/
theorem onEvents_stopped {κ : Type} (o : κ) :
    ∀ (events : List Nat) (b : NotifierBuilder κ),
      (b.onEvents events o).mInotify.stopped = b.mInotify.stopped
  | [], _ => rfl
  | e :: rest, b => by
    have ih := onEvents_stopped o rest (b.onEvent e o)
    simpa [NotifierBuilder.onEvents, NotifierBuilder.onEvent] using ih

/-- No builder operation clears the stop flag. -/
theorem applyOp_stopped_mono {κ : Type} (op : BuilderOp κ)
    (b : NotifierBuilder κ) (h : b.mInotify.stopped = true) :
    (applyOp op b).mInotify.stopped = true := by
  cases op with
  | watchFile fs file =>
    simp only [applyOp, NotifierBuilder.watchFile]
    cases hw : Inotify.watchFile fs file b.mInotify with
    | ok i =>
      have hi : i.stopped = b.mInotify.stopped :=
        watchFile_ok_stopped fs file b.mInotify i hw
      simpa [Except.map, hi] using h
    | error e => simpa [Except.map] using h
  | watchPathRecursively fs root =>
    simp only [applyOp, NotifierBuilder.watchPathRecursively]
    cases hw : Inotify.watchDirectoryRecursively fs root b.mInotify with
    | ok i =>
      have hi : i.stopped = b.mInotify.stopped :=
        watchDirectoryRecursively_ok_stopped fs root b.mInotify i hw
      simpa [Except.map, hi] using h
    | error e => simpa [Except.map] using h
  | unwatchFile file => exact h
  | ignoreFile file => exact h
  | ignoreFileOnce file => exact h
  | onEvent event eventObserver => exact h
  | onEvents events eventObserver =>
    rw [show applyOp (.onEvents events eventObserver) b =
        b.onEvents events eventObserver from rfl]
    rw [onEvents_stopped eventObserver events b]
    exact h
  | onUnexpectedEvent eventObserver => exact h
  | stop => rfl
  | runOnce =>
    rw [show applyOp (.runOnce) b = b.runOnce.2 from rfl, runOnce_stopped]
    exact h
  | run fuel =>
    rw [show applyOp (.run fuel) b = (NotifierBuilder.run fuel b).2 from rfl]
    rw [run_stopped fuel b]
    exact h

/-- No sequence of builder operations clears the stop flag. -/
theorem applyOps_stopped_mono {κ : Type} :
    ∀ (ops : List (BuilderOp κ)) (b : NotifierBuilder κ),
      b.mInotify.stopped = true → (applyOps ops b).mInotify.stopped = true
  | [], _, h => h
  | op :: rest, b, h =>
    applyOps_stopped_mono rest (applyOp op b) (applyOp_stopped_mono op b h)

end InotifyCpp

namespace InotifyCpp

/-- The callback registrations survive `runOnce` unchanged. -/
theorem runOnce_sameObservers {κ : Type} (b : NotifierBuilder κ) :
    sameObservers b.runOnce.2 b := by
  rw [runOnce_snd]
  exact ⟨rfl, rfl⟩

/-- The callback registrations survive `run` unchanged. -/
theorem run_sameObservers {κ : Type} :
    ∀ (fuel : Nat) (b : NotifierBuilder κ),
      sameObservers (NotifierBuilder.run fuel b).2 b
  | 0, _ => ⟨rfl, rfl⟩
  | Nat.succ fuel, b => by
    simp only [NotifierBuilder.run]
    split
    · exact ⟨rfl, rfl⟩
    · have h1 := runOnce_sameObservers b
      have h2 := run_sameObservers fuel b.runOnce.2
      exact ⟨h2.1.trans h1.1, h2.2.trans h1.2⟩

/-- C6: the stopped state is terminal and one-way.  After `stop()` has been
invoked, any sequence of later builder operations leaves `hasStopped()` true,
and `run` on the resulting notifier performs no `runOnce` iteration: it
returns at once with no callback invocation and no state change.  No sequence
of later operations resumes the loop. -/
theorem stop_is_terminal {κ : Type} (b : NotifierBuilder κ)
    (ops : List (BuilderOp κ)) (fuel : Nat) :
    Inotify.hasStopped (applyOps ops b.stop).mInotify = true ∧
      NotifierBuilder.run fuel (applyOps ops b.stop) =
        ([], applyOps ops b.stop) := by
  have hs : (applyOps ops b.stop).mInotify.stopped = true :=
    applyOps_stopped_mono ops b.stop rfl
  exact ⟨hs, run_of_stopped fuel (applyOps ops b.stop) hs⟩

/-- C10: every path-registration method — `watchFile`,
`watchPathRecursively`, `unwatchFile`, `ignoreFile`, `ignoreFileOnce` —
returns the builder itself with the callback registrations untouched (the
same observer map and the same fallback), whether the call succeeds or throws;
`stop`, `runOnce` and `run` do not touch them either, so only `onEvent`,
`onEvents` and `onUnexpectedEvent` modify the callback registrations. -/
theorem builder_path_methods_frame {κ : Type} (b : NotifierBuilder κ)
    (fs : Filesystem) (p : String) (fuel : Nat) :
    sameObservers (applyOp (.watchFile fs p) b) b ∧
      sameObservers (applyOp (.watchPathRecursively fs p) b) b ∧
      sameObservers (b.unwatchFile p) b ∧
      sameObservers (b.ignoreFile p) b ∧
      sameObservers (b.ignoreFileOnce p) b ∧
      sameObservers b.stop b ∧
      sameObservers b.runOnce.2 b ∧
      sameObservers (NotifierBuilder.run fuel b).2 b := by
  refine ⟨?_, ?_, ⟨rfl, rfl⟩, ⟨rfl, rfl⟩, ⟨rfl, rfl⟩, ⟨rfl, rfl⟩,
    runOnce_sameObservers b, run_sameObservers fuel b⟩
  · simp only [applyOp, NotifierBuilder.watchFile]
    cases hw : Inotify.watchFile fs p b.mInotify <;>
      simp [Except.map, sameObservers]
  · simp only [applyOp, NotifierBuilder.watchPathRecursively]
    cases hw : Inotify.watchDirectoryRecursively fs p b.mInotify <;>
      simp [Except.map, sameObservers]

end InotifyCpp
